import Mathlib

/-!
Verification development for the job-forge job-board application.

The data model follows `prisma/schema.prisma`; the listing query follows
`getData` in `src/components/general/JobListings.tsx`; the server actions
(`createJob`, `editJobPost`, `deleteJobPost`, `saveJobPost`, `unSaveJobPost`)
follow the server-actions module; the payment webhook follows the `POST`
route handler.  The relational store is embedded as explicit lists of rows,
and each operation is a pure function from a store (plus request data) to a
result, an updated store, and the background-queue messages it emits.
-/

namespace JobForge

/-- Status enum of a job posting, from `enum JobPostStatus` in the Prisma
schema: `DRAFT`, `ACTIVE`, `EXPIRE`; the schema default is `DRAFT`. -/
inductive JobPostStatus where
  | DRAFT
  | ACTIVE
  | EXPIRE
deriving DecidableEq, Repr

/-- Row of the `User` model (only the fields the verified operations read):
`id` and the optional `stripeCustomerId` (unique payment-customer link). -/
structure User where
  id : String
  stripeCustomerId : Option String
deriving DecidableEq, Repr

/-- Row of the `Company` model (fields the verified operations read):
`id` and the unique `userId` of the owning user. -/
structure Company where
  id : String
  userId : String
deriving DecidableEq, Repr

/-- Row of the `JobPost` model.  `createdAt` is an abstract timestamp
(later = larger).  The auto-touched `updatedAt` column is omitted. -/
structure JobPost where
  id : String
  jobTitle : String
  employmentType : String
  location : String
  salaryFrom : Int
  salaryTo : Int
  jobDescription : String
  listingDuration : Int
  benefits : List String
  status : JobPostStatus
  createdAt : Nat
  companyId : String
deriving DecidableEq, Repr

/-- Row of the `SavedJobPost` join model; the schema declares
`@@unique([userId, jobPostId])`. -/
structure SavedJobPost where
  id : String
  jobPostId : String
  userId : String
deriving DecidableEq, Repr

/-- The relational store: one list of rows per model in scope. -/
structure Store where
  users : List User
  companies : List Company
  jobPosts : List JobPost
  savedJobPosts : List SavedJobPost
deriving DecidableEq, Repr

/-- Message sent to the background scheduler (inngest): `job/created`
carries `{jobId, expirationDays}`, `job/cancel.expiration` carries
`{jobId}`. -/
inductive InngestEvent where
  | jobCreated (jobId : String) (expirationDays : Int)
  | cancelExpiration (jobId : String)
deriving DecidableEq, Repr

/-- HTTP response of the webhook route: a status code and an optional
plain-text body. -/
structure HttpResponse where
  status : Nat
  body : Option String
deriving DecidableEq, Repr

/-! ## Listing query (`getData` in `JobListings.tsx`) -/

/-- The dynamic `where` clause of `getData`: status must be `ACTIVE`; when
`jobTypes` is non-empty, `employmentType` must be `in` it; when `location`
is truthy (non-empty) and not the `"worldwide"` sentinel, `location` must
equal it exactly. -/
def matchesWhere (jobTypes : List String) (location : String) (j : JobPost) : Bool :=
  j.status == JobPostStatus.ACTIVE
    && (jobTypes.length == 0 || jobTypes.contains j.employmentType)
    && (location == "" || location == "worldwide" || j.location == location)

/-- Insert a job into a list kept in descending `createdAt` order. -/
def insertDesc (j : JobPost) : List JobPost → List JobPost
  | [] => [j]
  | x :: xs => if x.createdAt ≤ j.createdAt then j :: x :: xs else x :: insertDesc j xs

/-- Semantics of `orderBy: { createdAt: "desc" }`: sort rows by creation
time, newest first. -/
def sortByCreatedAtDesc (l : List JobPost) : List JobPost :=
  l.foldr insertDesc []

/-- The count query of `getData`: number of rows with `status: "ACTIVE"`,
with no other condition. -/
def activeCount (st : Store) : Nat :=
  (st.jobPosts.filter (fun j => j.status == JobPostStatus.ACTIVE)).length

/-- The rows the `findMany` of `getData` returns before projection: filter
by the `where` clause, order by `createdAt` descending, `skip`
`(page − 1) × pageSize` rows and `take` `pageSize` rows. -/
def listingRows (st : Store) (page pageSize : Nat) (jobTypes : List String)
    (location : String) : List JobPost :=
  let skip := (page - 1) * pageSize
  (((sortByCreatedAtDesc (st.jobPosts.filter (matchesWhere jobTypes location))).drop
    skip).take pageSize)

/-- `getData`: runs the page query and the count query and returns
`{ jobs, totalPages }` with `totalPages = Math.ceil(totalCount / pageSize)`
where `totalCount` counts ALL `ACTIVE` rows. -/
def getData (st : Store) (page pageSize : Nat) (jobTypes : List String)
    (location : String) : List JobPost × Nat :=
  (listingRows st page pageSize jobTypes location,
   (activeCount st + pageSize - 1) / pageSize)

/-! ## Listing-view query-parameter processing (`Home` page component) -/

/-- Character-level worker for JavaScript `String.prototype.split` with a
single-character separator: accumulates the current field and starts a new
one at each separator; on exhausted input the current field is emitted, so
the result is never the empty list. -/
def jsSplitAux (sep : Char) : List Char → List Char → List (List Char)
  | [], acc => [acc.reverse]
  | c :: cs, acc =>
      if c = sep then acc.reverse :: jsSplitAux sep cs []
      else jsSplitAux sep cs (c :: acc)

/-- JavaScript `s.split(sep)` for a one-character separator; in particular
`"" .split(",") = [""]`. -/
def jsSplit (s : String) (sep : Char) : List String :=
  (jsSplitAux sep s.toList []).map (fun cs => String.mk cs)

/-- Processing of the `jobTypes` search parameter in the listing page:
`jobTypes?.split(",") || []` — an absent parameter yields `[]`, a present
one is comma-split (a JavaScript array is always truthy, so the `|| []`
fallback fires only when the parameter is absent). -/
def parseJobTypes : Option String → List String
  | none => []
  | some s => jsSplit s ','

/-! ## Validation (`jobSchema` in the zod-schemas module) -/

/-- The job fields taken from the posting form; the `jobSchema` also
carries `company*` display fields, which no verified operation reads. -/
structure JobData where
  jobTitle : String
  employmentType : String
  location : String
  salaryFrom : Int
  salaryTo : Int
  jobDescription : String
  listingDuration : Int
  benefits : List String
deriving DecidableEq, Repr

/-- `jobSchema.parse` succeeds exactly when: `jobTitle` has at least 2
characters, `employmentType`, `location` and `jobDescription` are
non-empty, `salaryFrom`, `salaryTo` and `listingDuration` are at least 1,
and every listed benefit string is non-empty. -/
def jobSchemaValid (d : JobData) : Bool :=
  2 ≤ d.jobTitle.length
    && 1 ≤ d.employmentType.length
    && 1 ≤ d.location.length
    && 1 ≤ d.salaryFrom
    && 1 ≤ d.salaryTo
    && 1 ≤ d.jobDescription.length
    && 1 ≤ d.listingDuration
    && d.benefits.all (fun b => 1 ≤ b.length)

/-! ## Pricing tiers -/

/-- A pricing tier: a listing duration in days with its price. -/
structure PricingTier where
  days : Int
  price : Int
deriving DecidableEq, Repr

/-- Modelled from the spec: the `jobListingPricing` array is imported by
the server actions (`lib/jobListingPricing`) but its source file is not in
the repository snapshot.  The spec's lifecycle scenario requires a 30-day
tier to exist (`listingDuration=30` succeeds), and the duration selector
renders one tier per supported duration; standard 30/60/90-day tiers are
assumed. -/
def jobListingPricing : List PricingTier :=
  [⟨30, 99⟩, ⟨60, 179⟩, ⟨90, 249⟩]

/-! ## Server actions (the `"use server"` actions module) -/

/-- Relation filter `Company: { userId: user.id }` on a job row: the job's
owning company row has `userId` equal to the caller. -/
def ownsJob (st : Store) (userId : String) (j : JobPost) : Bool :=
  st.companies.any (fun c => c.id == j.companyId && c.userId == userId)

/-- Outcome of `createJob`: redirect to checkout (carrying the session's
`customer` and `metadata.jobId`), redirect home when the caller has no
company, or a thrown error. -/
inductive CreateOutcome where
  | checkoutRedirect (customer : String) (jobId : String)
  | redirectHome
  | invalidDuration
  | validationError
deriving DecidableEq, Repr

/-- `createJob`: validate against `jobSchema`; look up the caller's company
(redirect `/` when absent); reuse or create the Stripe customer id (the
fresh id `newCustomerId` stands for `stripe.customers.create`); insert the
job row (status defaults to `DRAFT`); send `job/created` with
`{jobId, expirationDays: listingDuration}`; then look up the pricing tier
for the duration, throwing `Invalid listing duration selected` when none
matches, and otherwise create the checkout session (customer, job id in
`metadata`) and redirect to it.  `newJobId` stands for the generated
row id and `now` for the insertion timestamp. -/
def createJob (st : Store) (userId : String) (d : JobData)
    (newJobId newCustomerId : String) (now : Nat) :
    CreateOutcome × Store × List InngestEvent :=
  if jobSchemaValid d then
    match st.companies.find? (fun c => c.userId == userId) with
    | none => (CreateOutcome.redirectHome, st, [])
    | some company =>
        let existing := (st.users.find? (fun u => u.id == userId)).bind
          (fun (u : User) => u.stripeCustomerId)
        let custId := existing.getD newCustomerId
        let st1 :=
          match existing with
          | some _ => st
          | none =>
              { st with
                users := st.users.map (fun (u : User) =>
                  if u.id == userId then { u with stripeCustomerId := some newCustomerId }
                  else u) }
        let newJob : JobPost :=
          { id := newJobId
            jobTitle := d.jobTitle
            employmentType := d.employmentType
            location := d.location
            salaryFrom := d.salaryFrom
            salaryTo := d.salaryTo
            jobDescription := d.jobDescription
            listingDuration := d.listingDuration
            benefits := d.benefits
            status := JobPostStatus.DRAFT
            createdAt := now
            companyId := company.id }
        let st2 := { st1 with jobPosts := st1.jobPosts ++ [newJob] }
        let events := [InngestEvent.jobCreated newJobId d.listingDuration]
        match jobListingPricing.find? (fun t => t.days == d.listingDuration) with
        | none => (CreateOutcome.invalidDuration, st2, events)
        | some _ => (CreateOutcome.checkoutRedirect custId newJobId, st2, events)
  else (CreateOutcome.validationError, st, [])

/-- The field replacement performed by the `update` in `editJobPost`: the
eight form fields are written, every other column is untouched. -/
def applyEdit (d : JobData) (j : JobPost) : JobPost :=
  { j with
    jobDescription := d.jobDescription
    jobTitle := d.jobTitle
    employmentType := d.employmentType
    location := d.location
    salaryFrom := d.salaryFrom
    salaryTo := d.salaryTo
    listingDuration := d.listingDuration
    benefits := d.benefits }

/-- Outcome of a mutation action: success, a validation error, or the
record-not-found error Prisma raises when the `where` filter matches no
row. -/
inductive ActionOutcome where
  | ok
  | validationError
  | notFound
  | uniqueViolation
deriving DecidableEq, Repr

/-- `editJobPost`: validate, then `update` the row matching both
`id: jobId` and `Company: { userId: user.id }`; when no row matches, the
`update` call raises record-not-found and nothing is written. -/
def editJobPost (st : Store) (userId : String) (d : JobData) (jobId : String) :
    ActionOutcome × Store :=
  if jobSchemaValid d then
    if st.jobPosts.any (fun j => j.id == jobId && ownsJob st userId j) then
      (ActionOutcome.ok,
       { st with
         jobPosts := st.jobPosts.map (fun j =>
           if j.id == jobId && ownsJob st userId j then applyEdit d j else j) })
    else (ActionOutcome.notFound, st)
  else (ActionOutcome.validationError, st)

/-- `deleteJobPost`: `delete` the row matching both `id: jobId` and
`Company: { userId: session.id }`; when no row matches, the `delete` raises
record-not-found and the subsequent `job/cancel.expiration` send is never
reached. -/
def deleteJobPost (st : Store) (userId : String) (jobId : String) :
    ActionOutcome × Store × List InngestEvent :=
  if st.jobPosts.any (fun j => j.id == jobId && ownsJob st userId j) then
    (ActionOutcome.ok,
     { st with
       jobPosts := st.jobPosts.filter (fun j =>
         !(j.id == jobId && ownsJob st userId j)) },
     [InngestEvent.cancelExpiration jobId])
  else (ActionOutcome.notFound, st, [])

/-- `saveJobPost`: `create` a `SavedJobPost` row `(jobPostId, userId)`;
the schema's `@@unique([userId, jobPostId])` makes the insert fail with a
unique-constraint violation when the pair already exists.  `newId` stands
for the generated row id. -/
def saveJobPost (st : Store) (userId jobId newId : String) :
    ActionOutcome × Store :=
  if st.savedJobPosts.any (fun r => r.userId == userId && r.jobPostId == jobId) then
    (ActionOutcome.uniqueViolation, st)
  else
    (ActionOutcome.ok,
     { st with savedJobPosts := st.savedJobPosts ++ [⟨newId, jobId, userId⟩] })

/-- `unSaveJobPost`: `delete` the `SavedJobPost` row by its own `id`,
additionally scoped to `userId`; a missing or foreign row raises
record-not-found.  Returns the deleted row's `jobPostId` on success. -/
def unSaveJobPost (st : Store) (userId savedId : String) :
    ActionOutcome × Store × Option String :=
  match st.savedJobPosts.find? (fun r => r.id == savedId && r.userId == userId) with
  | none => (ActionOutcome.notFound, st, none)
  | some r =>
      (ActionOutcome.ok,
       { st with savedJobPosts := st.savedJobPosts.filter (fun x => !(x.id == savedId)) },
       some r.jobPostId)

/-! ## Payment webhook (`POST` route handler) -/

/-- The `where` filter of the webhook's `jobPost.update`:
`{ id: jobId, companyId: company?.Company?.id as string }`.  When the
looked-up user has no company, the optional chain yields `undefined` and
Prisma drops the `companyId` condition, so only the id is matched. -/
def jobMatches (jobId : String) (companyFilter : Option String) (j : JobPost) : Bool :=
  j.id == jobId &&
    (match companyFilter with
     | none => true
     | some cid => j.companyId == cid)

/-- Body of the `checkout.session.completed` branch of the webhook `POST`
handler (after signature verification): reject with 400 `no job id found`
when `session.metadata.jobId` is absent; look up the user by
`stripeCustomerId` and reject with 400 `no company found for the user`
when none matches; otherwise `update` the job row matched by
`{ id, companyId }` to `ACTIVE` and respond 200 with empty body.  When the
`update` matches no row it raises record-not-found, surfacing as an
unhandled 500. -/
def handleCheckoutCompleted (st : Store) (jobIdOpt : Option String)
    (customerId : String) : HttpResponse × Store :=
  match jobIdOpt with
  | none => (⟨400, some "no job id found"⟩, st)
  | some jobId =>
      match st.users.find? (fun u => u.stripeCustomerId == some customerId) with
      | none => (⟨400, some "no company found for the user"⟩, st)
      | some user =>
          let companyFilter :=
            (st.companies.find? (fun c => c.userId == user.id)).map (fun c => c.id)
          if st.jobPosts.any (jobMatches jobId companyFilter) then
            (⟨200, none⟩,
             { st with
               jobPosts := st.jobPosts.map (fun j =>
                 if jobMatches jobId companyFilter j then
                   { j with status := JobPostStatus.ACTIVE }
                 else j) })
          else (⟨500, some "record not found"⟩, st)

/-- The webhook `POST` handler after signature verification: only the
`checkout.session.completed` event type is processed; any other event type
is acknowledged with 200 and no state change. -/
def webhookPOST (st : Store) (eventType : String) (jobIdOpt : Option String)
    (customerId : String) : HttpResponse × Store :=
  if eventType == "checkout.session.completed" then
    handleCheckoutCompleted st jobIdOpt customerId
  else (⟨200, none⟩, st)

/-! ## Concrete example rows and stores used by witnesses -/

/-- A single active full-time job row. -/
def exJob (id : String) (created : Nat) : JobPost :=
  ⟨id, "Engineer", "full-time", "Berlin", 50, 80, "desc", 30, ["gym"],
   JobPostStatus.ACTIVE, created, "c1"⟩

/-- A store holding three ACTIVE full-time jobs and nothing else. -/
def exListingStore : Store :=
  ⟨[], [], [exJob "a" 3, exJob "b" 7, exJob "c" 5], []⟩

/-- A store whose only user carries a Stripe customer id but owns no
company, together with one DRAFT job. -/
def exOrphanCustomerStore : Store :=
  ⟨[⟨"u1", some "cus1"⟩], [],
   [⟨"j1", "Engineer", "full-time", "Berlin", 50, 80, "desc", 30, ["gym"],
     JobPostStatus.DRAFT, 1, "c9"⟩], []⟩

/-- A store with one ACTIVE job whose employment type is the empty
string. -/
def exEmptyTypeStore : Store :=
  ⟨[], [],
   [⟨"j2", "Engineer", "", "Berlin", 50, 80, "desc", 30, [],
     JobPostStatus.ACTIVE, 4, "c1"⟩], []⟩

/-- A well-formed job form input with a 30-day duration. -/
def exJobData : JobData :=
  ⟨"Engineer", "full-time", "Berlin", 50, 80, "desc", 30, ["gym"]⟩

/-- A store with one company owner (`u1`, company `c1`) and one job owned
by a different company, used to exercise the ownership checks. -/
def exForeignJobStore : Store :=
  ⟨[⟨"u1", some "cus1"⟩, ⟨"u2", none⟩],
   [⟨"c1", "u1"⟩, ⟨"c2", "u2"⟩],
   [⟨"j1", "Engineer", "full-time", "Berlin", 50, 80, "desc", 30, ["gym"],
     JobPostStatus.ACTIVE, 1, "c2"⟩], []⟩

/-! ## Helper lemmas -/

/-- The rows are pairwise ordered by creation time, newest first. -/
def SortedByCreatedAtDesc (l : List JobPost) : Prop :=
  l.Pairwise (fun a b => b.createdAt ≤ a.createdAt)

theorem mem_insertDesc {a j : JobPost} {l : List JobPost} :
    a ∈ insertDesc j l ↔ a = j ∨ a ∈ l := by
  induction l with
  | nil => simp [insertDesc]
  | cons x xs ih =>
      by_cases h : x.createdAt ≤ j.createdAt
      · simp only [insertDesc, if_pos h, List.mem_cons]
      · simp only [insertDesc, if_neg h, List.mem_cons, ih]
        tauto

theorem mem_sortByCreatedAtDesc {a : JobPost} {l : List JobPost} :
    a ∈ sortByCreatedAtDesc l ↔ a ∈ l := by
  induction l with
  | nil => simp [sortByCreatedAtDesc]
  | cons x xs ih =>
      simp only [sortByCreatedAtDesc, List.foldr_cons] at ih ⊢
      rw [mem_insertDesc, ih, List.mem_cons]

theorem sorted_insertDesc {j : JobPost} {l : List JobPost}
    (h : SortedByCreatedAtDesc l) : SortedByCreatedAtDesc (insertDesc j l) := by
  induction l with
  | nil => simp [insertDesc, SortedByCreatedAtDesc]
  | cons x xs ih =>
      rcases List.pairwise_cons.mp h with ⟨hx, hxs⟩
      by_cases hc : x.createdAt ≤ j.createdAt
      · simp only [insertDesc, if_pos hc]
        refine List.pairwise_cons.mpr ⟨?_, h⟩
        intro b hb
        rcases List.mem_cons.mp hb with rfl | hb
        · exact hc
        · exact le_trans (hx b hb) hc
      · simp only [insertDesc, if_neg hc]
        refine List.pairwise_cons.mpr ⟨?_, ih hxs⟩
        intro b hb
        rcases mem_insertDesc.mp hb with rfl | hb
        · omega
        · exact hx b hb

theorem sorted_sortByCreatedAtDesc (l : List JobPost) :
    SortedByCreatedAtDesc (sortByCreatedAtDesc l) := by
  induction l with
  | nil => simp [sortByCreatedAtDesc, SortedByCreatedAtDesc]
  | cons x xs ih =>
      simp only [sortByCreatedAtDesc, List.foldr_cons] at ih ⊢
      exact sorted_insertDesc ih

theorem length_insertDesc (j : JobPost) (l : List JobPost) :
    (insertDesc j l).length = l.length + 1 := by
  induction l with
  | nil => simp [insertDesc]
  | cons x xs ih =>
      by_cases h : x.createdAt ≤ j.createdAt <;>
        simp [insertDesc, h, ih]

theorem length_sortByCreatedAtDesc (l : List JobPost) :
    (sortByCreatedAtDesc l).length = l.length := by
  induction l with
  | nil => rfl
  | cons x xs ih =>
      simp only [sortByCreatedAtDesc, List.foldr_cons] at ih ⊢
      rw [length_insertDesc, ih, List.length_cons]

theorem mem_listingRows {st : Store} {p s : Nat} {T : List String} {L : String}
    {j : JobPost} (h : j ∈ listingRows st p s T L) :
    j ∈ st.jobPosts ∧ matchesWhere T L j = true := by
  unfold listingRows at h
  have h1 := List.mem_of_mem_take h
  have h2 := List.mem_of_mem_drop h1
  have h3 := mem_sortByCreatedAtDesc.mp h2
  exact ⟨(List.mem_filter.mp h3).1, (List.mem_filter.mp h3).2⟩

/-- Galois characterization of the `Math.ceil(N / s)` computation
`(N + s − 1) / s`: it is the least `m` with `N ≤ m * s`. -/
theorem ceil_div_le_iff {N s m : Nat} (hs : 0 < s) :
    (N + s - 1) / s ≤ m ↔ N ≤ m * s := by
  rw [Nat.div_le_iff_le_mul_add_pred hs, Nat.mul_comm]
  generalize m * s = A
  omega

/-! ## Claims -/

/-- C1: for every page size `s` and every employment-type/location filter,
the listing query computes `totalPages` as the ceiling of `N / s` where
`N` counts ALL ACTIVE job posts (the count is invariant under the filters,
and is characterized as the least `m` with `activeCount ≤ m * s`);
consequently, on a store of three ACTIVE full-time jobs filtered by
`part-time`, `totalPages` is 2 while no page contains any filtered
result. -/
theorem C1_totalPages_ignores_filters (st : Store) (p s : Nat)
    (T : List String) (L : String) (m : Nat) (hs : 0 < s) :
    (getData st p s T L).2 = (getData st p s [] "").2 ∧
    ((getData st p s T L).2 ≤ m ↔ activeCount st ≤ m * s) ∧
    ((getData exListingStore 1 2 ["part-time"] "").2 = 2 ∧
     (exListingStore.jobPosts.filter (matchesWhere ["part-time"] "")).length = 0 ∧
     (getData exListingStore 1 2 ["part-time"] "").1 = []) := by
  refine ⟨rfl, ?_, by decide⟩
  simpa [getData] using @ceil_div_le_iff (activeCount st) s m hs

/-- Closed witness for C1 at `s = 2`, `m = 2` on the example store. -/
theorem C1_totalPages_ignores_filters_witness :
    (getData exListingStore 1 2 ["part-time"] "worldwide").2 =
      (getData exListingStore 1 2 [] "").2 ∧
    ((getData exListingStore 1 2 ["part-time"] "worldwide").2 ≤ 2 ↔
      activeCount exListingStore ≤ 2 * 2) := by
  have h := C1_totalPages_ignores_filters exListingStore 1 2 ["part-time"]
    "worldwide" 2 (by decide)
  exact ⟨h.1, h.2.1⟩

/-- C4: every row returned by the listing query has status ACTIVE; when
the employment-type set `T` is non-empty the row's type is a member of
`T`; when the location `L` is neither empty nor the `worldwide` sentinel
the row's location equals `L`; and passing the `worldwide` sentinel
applies no location condition at all (the query equals the one with the
empty location). -/
theorem C4_listing_filter_policy :
    (∀ st p s T L j, j ∈ (getData st p s T L).1 →
        j.status = JobPostStatus.ACTIVE ∧
        (T ≠ [] → j.employmentType ∈ T) ∧
        (L ≠ "" → L ≠ "worldwide" → j.location = L)) ∧
    (∀ st p s T, getData st p s T "worldwide" = getData st p s T "") := by
  constructor
  · intro st p s T L j hj
    have hm := (mem_listingRows hj).2
    simp only [matchesWhere, Bool.and_eq_true, Bool.or_eq_true, beq_iff_eq] at hm
    obtain ⟨⟨hstat, htype⟩, hloc⟩ := hm
    refine ⟨hstat, ?_, ?_⟩
    · intro hT
      rcases htype with h | h
      · exact absurd (List.length_eq_zero.mp (by simpa using h)) hT
      · simpa using h
    · intro h1 h2
      rcases hloc with (h | h) | h
      · exact absurd h h1
      · exact absurd h h2
      · exact h
  · intro st p s T
    have hW : matchesWhere T "worldwide" = matchesWhere T "" := by
      funext j
      simp [matchesWhere]
    simp only [getData, listingRows, hW]

/-- Closed witness for C4: the job `b` returned on page 1 for the
`full-time`/`Berlin` filter is ACTIVE, full-time and in Berlin, and the
`worldwide` sentinel query equals the empty-location query. -/
theorem C4_listing_filter_policy_witness :
    (exJob "b" 7).status = JobPostStatus.ACTIVE ∧
    (exJob "b" 7).employmentType ∈ ["full-time"] ∧
    (exJob "b" 7).location = "Berlin" ∧
    getData exListingStore 1 2 ["full-time"] "worldwide" =
      getData exListingStore 1 2 ["full-time"] "" := by
  have h := C4_listing_filter_policy
  have hb := h.1 exListingStore 1 2 ["full-time"] "Berlin" (exJob "b" 7) (by decide)
  exact ⟨hb.1, hb.2.1 (by decide), hb.2.2 (by decide) (by decide),
    h.2 exListingStore 1 2 ["full-time"]⟩

/-- C5: for every page `p ≥ 1` and page size `s`, the listing query
returns at most `s` rows, sorted by creation time descending; a page
beyond the last page of filtered rows yields the empty sequence; and the
`i`-th returned row (for `i < s`) is exactly the `((p−1)·s + i)`-th row
of the sorted filtered sequence, i.e. exactly `(p−1)·s` records are
skipped. -/
theorem C5_pagination (st : Store) (p s : Nat) (T : List String) (L : String)
    (hp : 1 ≤ p) :
    (getData st p s T L).1.length ≤ s ∧
    SortedByCreatedAtDesc (getData st p s T L).1 ∧
    ((st.jobPosts.filter (matchesWhere T L)).length ≤ (p - 1) * s →
        (getData st p s T L).1 = []) ∧
    (∀ i, i < s →
        (listingRows st p s T L)[i]? =
          (sortByCreatedAtDesc
            (st.jobPosts.filter (matchesWhere T L)))[(p - 1) * s + i]?) := by
  have hgd : (getData st p s T L).1 =
      ((sortByCreatedAtDesc (st.jobPosts.filter (matchesWhere T L))).drop
        ((p - 1) * s)).take s := rfl
  refine ⟨?_, ?_, ?_, ?_⟩
  · rw [hgd]
    exact List.length_take_le s _
  · rw [hgd]
    exact (sorted_sortByCreatedAtDesc _).sublist
      ((List.take_sublist _ _).trans (List.drop_sublist _ _))
  · intro hle
    rw [hgd]
    have hlen : (sortByCreatedAtDesc
        (st.jobPosts.filter (matchesWhere T L))).length ≤ (p - 1) * s := by
      rw [length_sortByCreatedAtDesc]
      exact hle
    rw [List.drop_eq_nil_of_le hlen, List.take_nil]
  · intro i hi
    have hlr : listingRows st p s T L =
        ((sortByCreatedAtDesc (st.jobPosts.filter (matchesWhere T L))).drop
          ((p - 1) * s)).take s := rfl
    rw [hlr, List.getElem?_take, if_pos hi, List.getElem?_drop]

/-- Closed witness for C5 on the example store (page 1 full page; page 2
of an empty filtered set is empty; the first row of page 1 is the first
row of the sorted sequence). -/
theorem C5_pagination_witness :
    (getData exListingStore 1 2 [] "").1.length ≤ 2 ∧
    SortedByCreatedAtDesc (getData exListingStore 1 2 [] "").1 ∧
    (getData exListingStore 2 2 ["part-time"] "").1 = [] ∧
    (listingRows exListingStore 1 2 [] "")[0]? =
      (sortByCreatedAtDesc
        (exListingStore.jobPosts.filter (matchesWhere [] "")))[0]? := by
  have h1 := C5_pagination exListingStore 1 2 [] "" (by decide)
  have h2 := C5_pagination exListingStore 2 2 ["part-time"] "" (by decide)
  exact ⟨h1.1, h1.2.1, h2.2.2.1 (by decide), h1.2.2.2 0 (by decide)⟩

/-- C10: a `jobTypes` query parameter that is present but empty splits
into `[""]`, a non-empty filter set; the listing then only returns rows
whose employment type is the empty string — an empty result on any store
whose rows all have non-empty employment types, which validation
guarantees (`jobSchema` requires a non-empty `employmentType`) — rather
than the unfiltered ACTIVE set. -/
theorem C10_empty_jobTypes_filter :
    parseJobTypes (some "") = [""] ∧
    parseJobTypes (some "") ≠ [] ∧
    (∀ d : JobData, jobSchemaValid d = true → d.employmentType ≠ "") ∧
    (∀ st p s L j, j ∈ (getData st p s (parseJobTypes (some "")) L).1 →
        j.employmentType = "") ∧
    (∀ st p s L, (∀ j ∈ st.jobPosts, j.employmentType ≠ "") →
        (getData st p s (parseJobTypes (some "")) L).1 = []) := by
  have hsplit : parseJobTypes (some "") = [""] := rfl
  have hmem : ∀ st p s L (j : JobPost),
      j ∈ (getData st p s (parseJobTypes (some "")) L).1 →
      j ∈ st.jobPosts ∧ j.employmentType = "" := by
    intro st p s L j hj
    have h := mem_listingRows hj
    refine ⟨h.1, ?_⟩
    have hm := h.2
    rw [hsplit] at hm
    simp only [matchesWhere, Bool.and_eq_true, Bool.or_eq_true, beq_iff_eq] at hm
    rcases hm.1.2 with h0 | h0
    · simp at h0
    · simpa using h0
  refine ⟨hsplit, by decide, ?_, ?_, ?_⟩
  · intro d h
    simp only [jobSchemaValid, Bool.and_eq_true, decide_eq_true_eq] at h
    intro heq
    have := h.1.1.1.1.1.1.2
    rw [heq] at this
    simp at this
  · intro st p s L j hj
    exact (hmem st p s L j hj).2
  · intro st p s L hne
    refine List.eq_nil_iff_forall_not_mem.mpr ?_
    intro j hj
    exact hne j (hmem st p s L j hj).1 (hmem st p s L j hj).2

/-- Closed witness for C10: the validated example form data has a
non-empty employment type, and on the example store (whose jobs all have
non-empty employment types) the present-but-empty `jobTypes` parameter
yields no rows, while a job with an empty employment type would be
returned. -/
theorem C10_empty_jobTypes_filter_witness :
    exJobData.employmentType ≠ "" ∧
    (getData exListingStore 1 2 (parseJobTypes (some "")) "").1 = [] := by
  have h := C10_empty_jobTypes_filter
  exact ⟨h.2.2.1 exJobData (by decide),
    h.2.2.2.2 exListingStore 1 2 "" (by decide)⟩

/-- C2 counterexample: in a store whose only user carries the Stripe
customer id `cus1` but owns no company, a verified checkout-completed
delivery with that customer reference matches no Company, yet the
handler responds 200 (not 400 with a descriptive body) and mutates the
job store: the company condition of the update collapses to nothing and
the DRAFT job `j1` (owned by the unrelated company `c9`) is set
ACTIVE. -/
theorem C2_webhook_counterexample :
    (∀ c ∈ exOrphanCustomerStore.companies, False) ∧
    (∃ u ∈ exOrphanCustomerStore.users, u.stripeCustomerId = some "cus1") ∧
    (handleCheckoutCompleted exOrphanCustomerStore (some "j1") "cus1").1.status
      = 200 ∧
    (handleCheckoutCompleted exOrphanCustomerStore (some "j1") "cus1").2
      ≠ exOrphanCustomerStore ∧
    ∃ j ∈ (handleCheckoutCompleted exOrphanCustomerStore
        (some "j1") "cus1").2.jobPosts,
      j.id = "j1" ∧ j.status = JobPostStatus.ACTIVE := by
  decide

/-- C2 (amended): for every verified checkout-completed delivery: a
missing `jobId` yields 400 (`no job id found`) with no state change; a
customer reference matching no User yields 400
(`no company found for the user`) with no state change; when the matched
user owns a company and a job matches both the correlation id and that
company, the matching rows are set ACTIVE and the response is 200 with
empty body; and when the matched user owns no company the company
condition is dropped, so the job matching the correlation id alone is set
ACTIVE with a 200 response. -/
theorem C2_webhook_amended (st : Store) (jobIdOpt : Option String)
    (jid cust : String) (u : User) (c : Company) :
    (jobIdOpt = none →
      handleCheckoutCompleted st jobIdOpt cust =
        (⟨400, some "no job id found"⟩, st)) ∧
    ((∀ v ∈ st.users, v.stripeCustomerId ≠ some cust) →
      handleCheckoutCompleted st (some jid) cust =
        (⟨400, some "no company found for the user"⟩, st)) ∧
    (st.users.find? (fun v => v.stripeCustomerId == some cust) = some u →
      st.companies.find? (fun x => x.userId == u.id) = some c →
      st.jobPosts.any (jobMatches jid (some c.id)) = true →
      (handleCheckoutCompleted st (some jid) cust).1 = ⟨200, none⟩ ∧
      (handleCheckoutCompleted st (some jid) cust).2.jobPosts =
        st.jobPosts.map (fun j =>
          if jobMatches jid (some c.id) j then { j with status := JobPostStatus.ACTIVE }
          else j)) ∧
    (st.users.find? (fun v => v.stripeCustomerId == some cust) = some u →
      st.companies.find? (fun x => x.userId == u.id) = none →
      st.jobPosts.any (fun j => j.id == jid) = true →
      (handleCheckoutCompleted st (some jid) cust).1 = ⟨200, none⟩ ∧
      (handleCheckoutCompleted st (some jid) cust).2.jobPosts =
        st.jobPosts.map (fun j =>
          if j.id == jid then { j with status := JobPostStatus.ACTIVE }
          else j)) := by
  have hmatch : ∀ j : JobPost, jobMatches jid none j = (j.id == jid) := by
    intro j
    simp [jobMatches]
  refine ⟨?_, ?_, ?_, ?_⟩
  · rintro rfl
    rfl
  · intro hnone
    have hfind : st.users.find? (fun v => v.stripeCustomerId == some cust) = none := by
      rw [List.find?_eq_none]
      intro v hv
      simpa using hnone v hv
    simp [handleCheckoutCompleted, hfind]
  · intro hu hc hany
    simp [handleCheckoutCompleted, hu, hc, hany]
  · intro hu hc hany
    have hany2 : st.jobPosts.any (jobMatches jid none) = true := by
      simpa [hmatch] using hany
    simp only [handleCheckoutCompleted, hu, hc, Option.map_none]
    simp [hany2, hmatch]

/-- Closed witness for C2 (amended), exercising the missing-job-id branch,
the unknown-customer branch and the dropped-company-condition branch on
the orphan-customer example store. -/
theorem C2_webhook_amended_witness :
    (handleCheckoutCompleted exOrphanCustomerStore none "cusX" =
      (⟨400, some "no job id found"⟩, exOrphanCustomerStore)) ∧
    (handleCheckoutCompleted exOrphanCustomerStore (some "j1") "cusX" =
      (⟨400, some "no company found for the user"⟩, exOrphanCustomerStore)) ∧
    (handleCheckoutCompleted exOrphanCustomerStore (some "j1") "cus1").1 =
      ⟨200, none⟩ := by
  have h := C2_webhook_amended exOrphanCustomerStore none "j1" "cusX"
    ⟨"u1", some "cus1"⟩ ⟨"c0", "u0"⟩
  have h2 := C2_webhook_amended exOrphanCustomerStore (some "j1") "j1" "cus1"
    ⟨"u1", some "cus1"⟩ ⟨"c0", "u0"⟩
  exact ⟨h.1 rfl, h.2.1 (by decide),
    (h2.2.2.2 (by decide) (by decide) (by decide)).1⟩

/-- C3: when the target job id does not belong to a company owned by the
caller — including when no such job exists at all — both `editJobPost`
and `deleteJobPost` match zero rows and fail with the same single
record-not-found outcome, leaving the store (and hence the targeted row,
if any) unchanged, and emitting no cancellation message. -/
theorem C3_ownership_collapsed_not_found (st : Store) (userId : String)
    (d : JobData) (jobId : String)
    (hvalid : jobSchemaValid d = true)
    (hnone : ∀ j ∈ st.jobPosts, ¬(j.id = jobId ∧ ownsJob st userId j = true)) :
    editJobPost st userId d jobId = (ActionOutcome.notFound, st) ∧
    deleteJobPost st userId jobId = (ActionOutcome.notFound, st, []) := by
  have hany : st.jobPosts.any (fun j => j.id == jobId && ownsJob st userId j) = false := by
    rw [List.any_eq_false]
    intro j hj
    simpa using hnone j hj
  constructor
  · simp [editJobPost, hvalid, hany]
  · simp [deleteJobPost, hany]

/-- Closed witness for C3: `u1` can neither edit nor delete the job owned
by `u2`'s company, nor a nonexistent job id, and the store is untouched
with the same not-found outcome in both cases. -/
theorem C3_ownership_collapsed_not_found_witness :
    (editJobPost exForeignJobStore "u1" exJobData "j1" =
      (ActionOutcome.notFound, exForeignJobStore) ∧
     deleteJobPost exForeignJobStore "u1" "j1" =
      (ActionOutcome.notFound, exForeignJobStore, [])) ∧
    (editJobPost exForeignJobStore "u1" exJobData "ghost" =
      (ActionOutcome.notFound, exForeignJobStore) ∧
     deleteJobPost exForeignJobStore "u1" "ghost" =
      (ActionOutcome.notFound, exForeignJobStore, [])) := by
  exact ⟨C3_ownership_collapsed_not_found exForeignJobStore "u1" exJobData "j1"
      (by decide) (by decide),
    C3_ownership_collapsed_not_found exForeignJobStore "u1" exJobData "ghost"
      (by decide) (by decide)⟩

/-- C8: a successful `editJobPost` replaces exactly the eight form fields
of the targeted job — `jobTitle`, `employmentType`, `location`,
`salaryFrom`, `salaryTo`, `jobDescription`, `listingDuration`,
`benefits` — and leaves its `status`, its owning `companyId`, its `id`
and its creation time unchanged; rows not matching the ownership filter
are untouched. -/
theorem C8_edit_replaces_fields_keeps_status (st : Store) (userId : String)
    (d : JobData) (jobId : String) (j : JobPost)
    (hj : j ∈ st.jobPosts) (hid : j.id = jobId)
    (hown : ownsJob st userId j = true)
    (hvalid : jobSchemaValid d = true) :
    (editJobPost st userId d jobId).1 = ActionOutcome.ok ∧
    (∃ jNew ∈ (editJobPost st userId d jobId).2.jobPosts,
      jNew.id = j.id ∧ jNew.status = j.status ∧ jNew.companyId = j.companyId ∧
      jNew.createdAt = j.createdAt ∧
      jNew.jobTitle = d.jobTitle ∧ jNew.employmentType = d.employmentType ∧
      jNew.location = d.location ∧ jNew.salaryFrom = d.salaryFrom ∧
      jNew.salaryTo = d.salaryTo ∧ jNew.jobDescription = d.jobDescription ∧
      jNew.listingDuration = d.listingDuration ∧ jNew.benefits = d.benefits) ∧
    (∀ j2 ∈ st.jobPosts, ¬(j2.id = jobId ∧ ownsJob st userId j2 = true) →
      j2 ∈ (editJobPost st userId d jobId).2.jobPosts) := by
  have hcond : (j.id == jobId && ownsJob st userId j) = true := by
    simp [hid, hown]
  have hany : st.jobPosts.any (fun x => x.id == jobId && ownsJob st userId x) = true := by
    rw [List.any_eq_true]
    exact ⟨j, hj, hcond⟩
  have hres : editJobPost st userId d jobId =
      (ActionOutcome.ok,
       { st with
         jobPosts := st.jobPosts.map (fun x =>
           if x.id == jobId && ownsJob st userId x then applyEdit d x else x) }) := by
    simp [editJobPost, hvalid, hany]
  refine ⟨by rw [hres], ?_, ?_⟩
  · refine ⟨applyEdit d j, ?_, ?_⟩
    · rw [hres]
      have := List.mem_map_of_mem
        (fun x => if x.id == jobId && ownsJob st userId x then applyEdit d x else x) hj
      simpa [hcond] using this
    · simp [applyEdit]
  · intro j2 hj2 hnc
    rw [hres]
    have hc2 : (j2.id == jobId && ownsJob st userId j2) = false := by
      rcases Bool.eq_false_or_eq_true (j2.id == jobId && ownsJob st userId j2) with h | h
      · exact absurd (by simpa using h) hnc
      · exact h
    have := List.mem_map_of_mem
      (fun x => if x.id == jobId && ownsJob st userId x then applyEdit d x else x) hj2
    simpa [hc2] using this

/-- Closed witness for C8: the owner `u2` edits the job `j1` through the
example form data; the row keeps its ACTIVE status and company while the
eight form fields take the new values, and a hypothetical foreign row
would be untouched. -/
theorem C8_edit_replaces_fields_keeps_status_witness :
    (editJobPost exForeignJobStore "u2" exJobData "j1").1 = ActionOutcome.ok ∧
    (∃ jNew ∈ (editJobPost exForeignJobStore "u2" exJobData "j1").2.jobPosts,
      jNew.id = "j1" ∧ jNew.status = JobPostStatus.ACTIVE ∧
      jNew.companyId = "c2" ∧ jNew.jobTitle = exJobData.jobTitle) := by
  have h := C8_edit_replaces_fields_keeps_status exForeignJobStore "u2" exJobData
    "j1"
    ⟨"j1", "Engineer", "full-time", "Berlin", 50, 80, "desc", 30, ["gym"],
     JobPostStatus.ACTIVE, 1, "c2"⟩
    (by decide) (by decide) (by decide) (by decide)
  obtain ⟨h1, ⟨jNew, hmem, hprops⟩, _⟩ := h
  exact ⟨h1, jNew, hmem, hprops.1, hprops.2.1, hprops.2.2.1, hprops.2.2.2.2.1⟩

/-- C7: saving a job not currently saved succeeds, and unsaving the
created record returns the saved-set (indeed the whole store) to its
prior state; saving the same (user, job) pair a second time fails on the
`(userId, jobPostId)` unique constraint without touching the store —
no upsert, no silent success. -/
theorem C7_save_unsave_roundtrip (st : Store) (userId jobId newId newId2 : String)
    (hpair : ∀ r ∈ st.savedJobPosts, ¬(r.userId = userId ∧ r.jobPostId = jobId))
    (hfresh : ∀ r ∈ st.savedJobPosts, r.id ≠ newId) :
    (saveJobPost st userId jobId newId).1 = ActionOutcome.ok ∧
    unSaveJobPost (saveJobPost st userId jobId newId).2 userId newId =
      (ActionOutcome.ok, st, some jobId) ∧
    saveJobPost (saveJobPost st userId jobId newId).2 userId jobId newId2 =
      (ActionOutcome.uniqueViolation, (saveJobPost st userId jobId newId).2) := by
  have hany : st.savedJobPosts.any
      (fun r => r.userId == userId && r.jobPostId == jobId) = false := by
    rw [List.any_eq_false]
    intro r hr
    simpa using hpair r hr
  have hsave : saveJobPost st userId jobId newId =
      (ActionOutcome.ok,
       { st with savedJobPosts := st.savedJobPosts ++ [⟨newId, jobId, userId⟩] }) := by
    simp [saveJobPost, hany]
  have hfind1 : st.savedJobPosts.find?
      (fun r => r.id == newId && r.userId == userId) = none := by
    rw [List.find?_eq_none]
    intro r hr
    simp [hfresh r hr]
  have hfilter : st.savedJobPosts.filter (fun x => !(x.id == newId)) =
      st.savedJobPosts := by
    rw [List.filter_eq_self]
    intro r hr
    simp [hfresh r hr]
  refine ⟨by rw [hsave], ?_, ?_⟩
  · rw [hsave]
    simp only [unSaveJobPost, List.find?_append, hfind1, Option.none_or,
      List.filter_append, hfilter]
    simp
  · rw [hsave]
    simp [saveJobPost, List.any_append, hany]

/-- Closed witness for C7 on the foreign-job example store, whose
saved-set is empty. -/
theorem C7_save_unsave_roundtrip_witness :
    (saveJobPost exForeignJobStore "u1" "j1" "s1").1 = ActionOutcome.ok ∧
    unSaveJobPost (saveJobPost exForeignJobStore "u1" "j1" "s1").2 "u1" "s1" =
      (ActionOutcome.ok, exForeignJobStore, some "j1") ∧
    saveJobPost (saveJobPost exForeignJobStore "u1" "j1" "s1").2 "u1" "j1" "s2" =
      (ActionOutcome.uniqueViolation,
       (saveJobPost exForeignJobStore "u1" "j1" "s1").2) :=
  C7_save_unsave_roundtrip exForeignJobStore "u1" "j1" "s1" "s2"
    (by decide) (by decide)

/-- C9: when the form data passes validation but its `listingDuration`
matches no pricing tier, `createJob` throws `Invalid listing duration
selected` only after the DRAFT job row has been inserted and the
`job/created` scheduling message has been sent, so the failed call leaves
the store changed, orphaning a never-payable draft job. -/
theorem C9_invalid_duration_after_side_effects (st : Store) (userId : String)
    (d : JobData) (jid cid : String) (now : Nat) (c : Company)
    (hvalid : jobSchemaValid d = true)
    (hc : st.companies.find? (fun x => x.userId == userId) = some c)
    (hdur : ∀ t ∈ jobListingPricing, t.days ≠ d.listingDuration) :
    (createJob st userId d jid cid now).1 = CreateOutcome.invalidDuration ∧
    (createJob st userId d jid cid now).2.2 =
      [InngestEvent.jobCreated jid d.listingDuration] ∧
    (∃ jNew ∈ (createJob st userId d jid cid now).2.1.jobPosts,
      jNew.id = jid ∧ jNew.status = JobPostStatus.DRAFT ∧
      jNew.listingDuration = d.listingDuration) ∧
    (createJob st userId d jid cid now).2.1.jobPosts ≠ st.jobPosts := by
  have hfind : jobListingPricing.find? (fun t => t.days == d.listingDuration)
      = none := by
    rw [List.find?_eq_none]
    intro t ht
    simp [hdur t ht]
  have hjobs : (createJob st userId d jid cid now).2.1.jobPosts =
      st.jobPosts ++
        [⟨jid, d.jobTitle, d.employmentType, d.location, d.salaryFrom,
          d.salaryTo, d.jobDescription, d.listingDuration, d.benefits,
          JobPostStatus.DRAFT, now, c.id⟩] ∧
      (createJob st userId d jid cid now).1 = CreateOutcome.invalidDuration ∧
      (createJob st userId d jid cid now).2.2 =
        [InngestEvent.jobCreated jid d.listingDuration] := by
    cases hex : (st.users.find? (fun u => u.id == userId)).bind
        (fun (u : User) => u.stripeCustomerId) with
    | none => simp [createJob, hvalid, hc, hfind, hex]
    | some cust => simp [createJob, hvalid, hc, hfind, hex]
  refine ⟨hjobs.2.1, hjobs.2.2, ?_, ?_⟩
  · refine ⟨⟨jid, d.jobTitle, d.employmentType, d.location, d.salaryFrom,
      d.salaryTo, d.jobDescription, d.listingDuration, d.benefits,
      JobPostStatus.DRAFT, now, c.id⟩, ?_, rfl, rfl, rfl⟩
    rw [hjobs.1]
    exact List.mem_append_right _ (List.mem_singleton.mpr rfl)
  · rw [hjobs.1]
    intro heq
    have := congrArg List.length heq
    simp at this

/-- Closed witness for C9: a validated 7-day posting (no 7-day pricing
tier exists) by the company owner `u1`. -/
theorem C9_invalid_duration_after_side_effects_witness :
    (createJob exForeignJobStore "u1"
      ⟨"Engineer", "full-time", "Berlin", 50, 80, "desc", 7, ["gym"]⟩
      "j9" "cus9" 5).1 = CreateOutcome.invalidDuration ∧
    (createJob exForeignJobStore "u1"
      ⟨"Engineer", "full-time", "Berlin", 50, 80, "desc", 7, ["gym"]⟩
      "j9" "cus9" 5).2.2 = [InngestEvent.jobCreated "j9" 7] := by
  have h := C9_invalid_duration_after_side_effects exForeignJobStore "u1"
    ⟨"Engineer", "full-time", "Berlin", 50, 80, "desc", 7, ["gym"]⟩
    "j9" "cus9" 5 ⟨"c1", "u1"⟩ (by decide) (by decide) (by decide)
  exact ⟨h.1, h.2.1⟩

/-- C6: the full lifecycle on a one-user one-company store: a successful
`createJob` inserts the job with the schema-default DRAFT status and
sends `job/created` carrying the new job id and the validated
`listingDuration` as `expirationDays`; the later verified
checkout-completed webhook with the matching job id and customer sets the
row ACTIVE with a 200 response; a subsequent `deleteJobPost` by the owner
removes the row and emits `job/cancel.expiration` with the same job
id. -/
theorem C6_lifecycle_scenario (u : User) (c : Company) (d : JobData)
    (jid cid : String) (now : Nat)
    (hvalid : jobSchemaValid d = true)
    (hdur : d.listingDuration = 30)
    (hcu : c.userId = u.id)
    (hcust : u.stripeCustomerId = none) :
    createJob ⟨[u], [c], [], []⟩ u.id d jid cid now =
      (CreateOutcome.checkoutRedirect cid jid,
       ⟨[{ u with stripeCustomerId := some cid }], [c],
        [⟨jid, d.jobTitle, d.employmentType, d.location, d.salaryFrom,
          d.salaryTo, d.jobDescription, d.listingDuration, d.benefits,
          JobPostStatus.DRAFT, now, c.id⟩], []⟩,
       [InngestEvent.jobCreated jid d.listingDuration]) ∧
    handleCheckoutCompleted
      ⟨[{ u with stripeCustomerId := some cid }], [c],
       [⟨jid, d.jobTitle, d.employmentType, d.location, d.salaryFrom,
         d.salaryTo, d.jobDescription, d.listingDuration, d.benefits,
         JobPostStatus.DRAFT, now, c.id⟩], []⟩
      (some jid) cid =
      (⟨200, none⟩,
       ⟨[{ u with stripeCustomerId := some cid }], [c],
        [⟨jid, d.jobTitle, d.employmentType, d.location, d.salaryFrom,
          d.salaryTo, d.jobDescription, d.listingDuration, d.benefits,
          JobPostStatus.ACTIVE, now, c.id⟩], []⟩) ∧
    deleteJobPost
      ⟨[{ u with stripeCustomerId := some cid }], [c],
       [⟨jid, d.jobTitle, d.employmentType, d.location, d.salaryFrom,
         d.salaryTo, d.jobDescription, d.listingDuration, d.benefits,
         JobPostStatus.ACTIVE, now, c.id⟩], []⟩
      u.id jid =
      (ActionOutcome.ok,
       ⟨[{ u with stripeCustomerId := some cid }], [c], [], []⟩,
       [InngestEvent.cancelExpiration jid]) := by
  refine ⟨?_, ?_, ?_⟩
  · simp [createJob, hvalid, hcu, hcust, hdur, jobListingPricing]
  · simp [handleCheckoutCompleted, hcu, jobMatches]
  · simp [deleteJobPost, ownsJob, hcu]

/-- Closed witness for C6 with concrete user, company, form data and
ids. -/
theorem C6_lifecycle_scenario_witness :
    (createJob ⟨[⟨"u1", none⟩], [⟨"c1", "u1"⟩], [], []⟩ "u1" exJobData
        "j1" "cus1" 9).1 = CreateOutcome.checkoutRedirect "cus1" "j1" ∧
    (handleCheckoutCompleted
      ⟨[⟨"u1", some "cus1"⟩], [⟨"c1", "u1"⟩],
       [⟨"j1", exJobData.jobTitle, exJobData.employmentType, exJobData.location,
         exJobData.salaryFrom, exJobData.salaryTo, exJobData.jobDescription,
         exJobData.listingDuration, exJobData.benefits,
         JobPostStatus.DRAFT, 9, "c1"⟩], []⟩
      (some "j1") "cus1").1 = ⟨200, none⟩ := by
  have h := C6_lifecycle_scenario ⟨"u1", none⟩ ⟨"c1", "u1"⟩ exJobData
    "j1" "cus1" 9 (by decide) (by decide) rfl rfl
  exact ⟨by rw [h.1], by rw [h.2.1]⟩
